import Mathlib

/-!
Verification development for the CST3144 lesson-booking backend
(`server.js`, `scripts/seed.js`).

The JavaScript routes are shallowly embedded as pure Lean functions over an
explicit document store (a list of documents, each an association list of
field name to value).  Store operations (`find`, `insertOne`, `updateOne`,
`deleteMany`, `insertMany`) are modelled as succeeding; the seeder model
additionally carries an environment of failure flags because its exit-code
behaviour under failure is itself under scrutiny.
-/

namespace CST3144

/-- Values of the JSON / JavaScript fragment the routes manipulate.
`vDate` stands for a server-created `Date` (carrying an abstract clock
reading); dates are never parsed out of request payloads.  Numbers are
modelled as integers: every number occurring in the catalog, in the route
comparisons and in the claims is integer-valued. -/
inductive JsVal where
  | vUndefined : JsVal
  | vNull : JsVal
  | vBool : Bool → JsVal
  | vNum : Int → JsVal
  | vStr : String → JsVal
  | vDate : Int → JsVal
  | vArr : List JsVal → JsVal
  | vObj : List (String × JsVal) → JsVal

/-- A stored document / parsed JSON object body: an association list of
field name to value (first binding wins on lookup, as parsed JSON objects
have no duplicate keys). -/
abbrev Doc := List (String × JsVal)

/-- Field lookup on a document: `none` when the field is absent. -/
def getField : Doc → String → Option JsVal
  | [], _ => none
  | (k', v) :: rest, k => if k' = k then some v else getField rest k

/-- JavaScript property access / destructuring: an absent field reads as
`undefined`. -/
def jsField (d : Doc) (k : String) : JsVal :=
  match getField d k with
  | some v => v
  | none => JsVal.vUndefined

/-- JavaScript truthiness (`!v` is `!jsTruthy v`).  In the integer number
fragment the falsy values are `undefined`, `null`, `false`, `0` and `""`. -/
def jsTruthy : JsVal → Bool
  | .vUndefined => false
  | .vNull => false
  | .vBool b => b
  | .vNum n => n != 0
  | .vStr s => !s.isEmpty
  | .vDate _ => true
  | .vArr _ => true
  | .vObj _ => true

/-- `Array.isArray(v)`. -/
def jsIsArray : JsVal → Bool
  | .vArr _ => true
  | _ => false

/-- `v.length` for the values that carry one (strings and arrays); `0`
as a dummy for the rest — in `handleCreateOrder` the length of `items`
is only compared after `Array.isArray(items)` has already succeeded, so
the dummy is never observable. -/
def jsArrLen : JsVal → Nat
  | .vArr xs => xs.length
  | _ => 0

mutual
/-- JavaScript `ToString` on the modelled fragment: `String(v)`, as invoked
by `RegExp.prototype.test`.  Integers print as their decimal form, matching
JS for integer-valued numbers; arrays print as their comma-joined elements
(`Array.prototype.toString`); a `Date`'s string form is irrelevant to every
route (dates are server-created, never tested), so it is left as `""`. -/
def jsToString : JsVal → String
  | .vUndefined => "undefined"
  | .vNull => "null"
  | .vBool b => cond b "true" "false"
  | .vNum n => toString n
  | .vStr s => s
  | .vDate _ => ""
  | .vObj _ => "[object Object]"
  | .vArr xs => jsJoinList xs

/-- `Array.prototype.join(",")` over element string forms, where `null`
and `undefined` elements contribute the empty string. -/
def jsJoinList : List JsVal → String
  | [] => ""
  | [v] => jsElemString v
  | v :: w :: vs => jsElemString v ++ "," ++ jsJoinList (w :: vs)

/-- String form of one array element: like `jsToString` except that
`null` and `undefined` become `""`. -/
def jsElemString : JsVal → String
  | .vUndefined => ""
  | .vNull => ""
  | .vBool b => cond b "true" "false"
  | .vNum n => toString n
  | .vStr s => s
  | .vDate _ => ""
  | .vObj _ => "[object Object]"
  | .vArr xs => jsJoinList xs
end

/-- The test `/^[0-9]+$/.test(phone)` from `handleCreateOrder`:
`ToString` the argument, then require a non-empty all-digit string
(`[0-9]` is exactly `Char.isDigit`). -/
def digitsOnlyTest (v : JsVal) : Bool :=
  let s := jsToString v
  !s.isEmpty && s.data.all Char.isDigit

/-- The comparison `phone.length < 8` from `handleCreateOrder`.  A string
or array has a numeric `length`; on the other payload values the `length`
property reads as `undefined` and `undefined < 8` is `false` (NaN
comparison).  A payload object carrying an own `length` field is outside
the modelled fragment and also reads as `false` here. -/
def jsLengthLtEight : JsVal → Bool
  | .vStr s => s.length < 8
  | .vArr xs => xs.length < 8
  | _ => false

/-- The order document built by `handleCreateOrder` before insertion:
`{ name, phone, items, total: total || 0, createdAt: new Date() }`, with
the server clock reading `now`. -/
def orderDocOf (body : Doc) (now : Int) : Doc :=
  [ ("name", jsField body "name"),
    ("phone", jsField body "phone"),
    ("items", jsField body "items"),
    ("total", if jsTruthy (jsField body "total") then jsField body "total" else .vNum 0),
    ("createdAt", .vDate now) ]

/-- Embedding of `handleCreateOrder` (server.js, shared by `POST /orders`
and `POST /order`): the two validation gates, then `insertOne` on the
orders collection.  Returns the HTTP status and the orders collection
after the request; `insertOne` is modelled as succeeding (the 500 branch
is store failure, outside the claims). -/
def handleCreateOrder (body : Doc) (now : Int) (orders : List Doc) : Nat × List Doc :=
  let name := jsField body "name"
  let phone := jsField body "phone"
  let items := jsField body "items"
  if !jsTruthy name || !jsTruthy phone || !jsIsArray items || jsArrLen items == 0 then
    (400, orders)
  else
    let phoneDigitsOnly := digitsOnlyTest phone
    if !phoneDigitsOnly || jsLengthLtEight phone then
      (400, orders)
    else
      (201, orders ++ [orderDocOf body now])

/-- `app.post("/orders", handleCreateOrder)`. -/
def postOrdersRoute : Doc → Int → List Doc → Nat × List Doc :=
  handleCreateOrder

/-- `app.post("/order", handleCreateOrder)` — the alias route. -/
def postOrderRoute : Doc → Int → List Doc → Nat × List Doc :=
  handleCreateOrder

/-! ### Strings: whitespace, trimming, lower-casing -/

/-- ECMAScript whitespace (ASCII fragment), as skipped by
`String.prototype.trim` and `parseInt`.  The exotic Unicode space
characters are outside the modelled fragment. -/
def jsWS (c : Char) : Bool :=
  c == ' ' || c == '\t' || c == '\n' || c == '\r' || c == '\x0b' || c == '\x0c'

/-- Drop leading and trailing whitespace from a character list. -/
def trimChars (l : List Char) : List Char :=
  ((l.dropWhile jsWS).reverse.dropWhile jsWS).reverse

/-- `String.prototype.trim()`. -/
def jsTrim (s : String) : String :=
  ⟨trimChars s.data⟩

/-- `String.prototype.toLowerCase()` (ASCII fragment: `Char.toLower`
lowers exactly the basic latin letters, as the spec's case-insensitivity
talks about latin-alphabet terms). -/
def jsToLower (s : String) : String :=
  ⟨s.data.map Char.toLower⟩

/-! ### The regular-expression fragment used by `GET /search`

`server.js` passes the lower-cased search term verbatim as a `$regex`
pattern with the `i` option.  The patterns reachable from the claims are
built from literal characters and the `.` wildcard, so the embedding
implements exactly that fragment: `.` matches any single character, every
other character matches itself up to ASCII case.  Patterns containing the
remaining ECMAScript metacharacters (`* + ? ^ $ ( ) [ ] | \` and braces)
are outside the fragment, and every quantified theorem about `/search`
carries a hypothesis excluding all metacharacters. -/

/-- One token of the modelled pattern fragment: a literal character or
the `.` wildcard. -/
inductive RTok where
  | lit : Char → RTok
  | anyChar : RTok

/-- Tokenize a pattern string: `.` becomes the wildcard, anything else a
literal. -/
def patToks (p : String) : List RTok :=
  p.data.map fun c => if c = '.' then RTok.anyChar else RTok.lit c

/-- Case-insensitive match of one token against one input character
(the `i` option canonicalizes both sides). -/
def tokMatch : RTok → Char → Bool
  | .anyChar, _ => true
  | .lit a, c => a.toLower == c.toLower

/-- Match a token sequence against a prefix of the input. -/
def matchToksHere : List RTok → List Char → Bool
  | [], _ => true
  | _ :: _, [] => false
  | t :: ts, c :: cs => tokMatch t c && matchToksHere ts cs

/-- Match a token sequence somewhere inside the input (regex search is
unanchored). -/
def matchToksIn (ts : List RTok) : List Char → Bool
  | [] => matchToksHere ts []
  | c :: cs => matchToksHere ts (c :: cs) || matchToksIn ts cs

/-- The Mongo `{ field: { $regex: pattern, $options: "i" } }` test applied
to a string value. -/
def regexTestI (pattern s : String) : Bool :=
  matchToksIn (patToks pattern) s.data

/-- The ECMAScript pattern metacharacters.  A term containing none of
them is matched purely literally (and lies inside the modelled regex
fragment). -/
def isRegexMeta (c : Char) : Bool :=
  c == '.' || c == '*' || c == '+' || c == '?' || c == '^' || c == '$' ||
  c == '(' || c == ')' || c == '[' || c == ']' || c == '|' || c == '\\' ||
  c == Char.ofNat 123 || c == Char.ofNat 125

/-- A search term free of regex metacharacters. -/
def metaFree (s : String) : Bool :=
  s.data.all fun c => !isRegexMeta c

/-! ### Numeric parsing -/

/-- Digit-list to number, most significant first. -/
def digitsToNat (cs : List Char) : Nat :=
  cs.foldl (fun a c => a * 10 + (c.toNat - 48)) 0

/-- The combination `numTerm = Number(term); isNumeric = !isNaN(numTerm)`
from `GET /search`, on the already-trimmed term: `some n` when the whole
string is an optionally-signed decimal integer literal, `none` (NaN)
otherwise.  Fragment note: `Number()` also accepts fractional, exponent,
hex and `Infinity` literal forms; those denote non-integer values (or
values no integer-valued `price`/`spaces` field can equal) and are outside
the modelled integer fragment. -/
def jsNumberInt (s : String) : Option Int :=
  match s.data with
  | '-' :: cs => if cs ≠ [] ∧ cs.all Char.isDigit then some (-(digitsToNat cs : Int)) else none
  | '+' :: cs => if cs ≠ [] ∧ cs.all Char.isDigit then some (digitsToNat cs : Int) else none
  | cs => if cs ≠ [] ∧ cs.all Char.isDigit then some (digitsToNat cs : Int) else none

/-- Mongo equality test `{ field: n }` on a document (numeric equality in
the integer fragment; an absent or non-numeric field never matches). -/
def numFieldEq (d : Doc) (f : String) (n : Int) : Bool :=
  match getField d f with
  | some (.vNum m) => m == n
  | _ => false

/-- Evaluation of the `$or` query built by `GET /search` on one document:
regex clauses on `subject` and `location` (matching only string values),
plus, when the term is numeric, equality clauses on `price` and
`spaces`. -/
def lessonMatchesQuery (term : String) (d : Doc) : Bool :=
  let lowerTerm := jsToLower term
  let textMatch := fun (f : String) =>
    match getField d f with
    | some (.vStr s) => regexTestI lowerTerm s
    | _ => false
  let numClause :=
    match jsNumberInt term with
    | some n => numFieldEq d "price" n || numFieldEq d "spaces" n
    | none => false
  textMatch "subject" || textMatch "location" || numClause

/-- Embedding of `GET /lessons`: `find({})` returns every document in
collection order. -/
def getLessonsRoute (lessons : List Doc) : List Doc :=
  lessons

/-- Embedding of `GET /search`: trim `req.query.q` (`undefined` coerces to
`""` through `|| ""`); an empty term returns all lessons, otherwise the
collection is filtered by the compound `$or` query. -/
def searchRoute (q : Option String) (lessons : List Doc) : List Doc :=
  let term := jsTrim (match q with | some s => s | none => "")
  if term.isEmpty then lessons
  else lessons.filter (lessonMatchesQuery term)

/-! ### The spec-side search predicate (for the refinement claim C3)

Modelled from the spec's words, to be compared with the query the code
builds: "subject contains the term as a case-insensitive substring, or
location contains the term as a case-insensitive substring, or — only
when the trimmed term parses fully as a number N — price equals N or
spaces equals N". -/

/-- Case-insensitive list prefix test. -/
def ciPrefixOf : List Char → List Char → Bool
  | [], _ => true
  | _ :: _, [] => false
  | a :: as, b :: bs => a.toLower == b.toLower && ciPrefixOf as bs

/-- Case-insensitive substring containment: the needle occurs
contiguously somewhere in the haystack. -/
def ciSubstrOf (p : List Char) : List Char → Bool
  | [] => ciPrefixOf p []
  | b :: bs => ciPrefixOf p (b :: bs) || ciSubstrOf p bs

/-- "`hay` contains `needle` as a case-insensitive substring". -/
def ciContains (needle hay : String) : Bool :=
  ciSubstrOf needle.data hay.data

/-- The spec's search predicate on one lesson document (see §4.3 of the
spec): case-insensitive substring on `subject` or `location`, or numeric
equality on `price` or `spaces` when the term parses fully as a number. -/
def specLessonMatches (term : String) (d : Doc) : Bool :=
  let textMatch := fun (f : String) =>
    match getField d f with
    | some (.vStr s) => ciContains term s
    | _ => false
  let numClause :=
    match jsNumberInt term with
    | some n => numFieldEq d "price" n || numFieldEq d "spaces" n
    | none => false
  textMatch "subject" || textMatch "location" || numClause

/-! ### `PUT /lessons/:id` -/

/-- `parseInt(idParam, 10)`: skip leading whitespace, read an optional
sign, then the longest decimal-digit prefix; NaN (`none`) when that
prefix is empty.  Trailing non-digit characters are ignored. -/
def jsParseIntTen (s : String) : Option Int :=
  match s.data.dropWhile jsWS with
  | [] => none
  | c :: rest =>
    if c = '-' then
      match rest.takeWhile Char.isDigit with
      | [] => none
      | ds => some (-(digitsToNat ds : Int))
    else if c = '+' then
      match rest.takeWhile Char.isDigit with
      | [] => none
      | ds => some (digitsToNat ds : Int)
    else
      match (c :: rest).takeWhile Char.isDigit with
      | [] => none
      | ds => some (digitsToNat ds : Int)

/-- Does a document match the filter `{ id: n }`? (numeric equality;
absent or non-numeric `id` fields never match). -/
def idMatches (d : Doc) (n : Int) : Bool :=
  match getField d "id" with
  | some (.vNum m) => m == n
  | _ => false

/-- `$set` of a single field: replace the first binding of the key, or
append the field when absent. -/
def setField : Doc → String → JsVal → Doc
  | [], k, v => [(k, v)]
  | (k', v') :: rest, k, v =>
    if k' = k then (k, v) :: rest else (k', v') :: setField rest k v

/-- `{ $set: patch }` applied to one document: set each patch field in
order. -/
def applySet (d : Doc) (patch : Doc) : Doc :=
  patch.foldl (fun acc kv => setField acc kv.1 kv.2) d

/-- The last binding of a key in a patch (the value `$set` leaves in
place when the key occurs). -/
def lastBinding : Doc → String → Option JsVal
  | [], _ => none
  | (k', v) :: rest, k =>
    match lastBinding rest k with
    | some w => some w
    | none => if k' = k then some v else none

/-- `updateOne({ id: n }, { $set: patch })`: patch the first matching
document, leave the rest untouched; returns the new collection and the
`matchedCount` (0 or 1). -/
def updateOne : List Doc → Int → Doc → List Doc × Nat
  | [], _, _ => ([], 0)
  | d :: rest, n, patch =>
    if idMatches d n then (applySet d patch :: rest, 1)
    else
      let r := updateOne rest n patch
      (d :: r.1, r.2)

/-- The three response shapes of `PUT /lessons/:id`.  `updated` carries
no document payload: the route answers `{ message: "Lesson updated" }`
and never echoes the updated record. -/
inductive PutResponse where
  | badRequest : PutResponse
  | notFound : PutResponse
  | updated : PutResponse
  deriving DecidableEq

/-- HTTP status of each `PUT /lessons/:id` response shape. -/
def putStatus : PutResponse → Nat
  | .badRequest => 400
  | .notFound => 404
  | .updated => 200

/-- Embedding of the `PUT /lessons/:id` handler: 400 before any store
operation when `parseInt` yields NaN; otherwise `updateOne` with the
request body as `$set` patch (`req.body || {}` — an absent body is the
empty patch), then 404 on `matchedCount === 0`, else the no-echo success
message. -/
def putLessonRoute (idParam : String) (body : Doc) (lessons : List Doc) :
    PutResponse × List Doc :=
  match jsParseIntTen idParam with
  | none => (.badRequest, lessons)
  | some n =>
    let r := updateOne lessons n body
    if r.2 == 0 then (.notFound, r.1) else (.updated, r.1)

/-! ### The seeder (`scripts/seed.js`) -/

/-- The fixed ten-lesson catalog from `scripts/seed.js`. -/
def seedLessons : List Doc :=
  [ [ ("id", .vNum 1), ("subject", .vStr "Mathematics"), ("location", .vStr "Hendon"),
      ("price", .vNum 100), ("spaces", .vNum 5), ("icon", .vStr "fa-solid fa-calculator"),
      ("image", .vStr "https://img.icons8.com/color/240/calculator--v1.png") ],
    [ ("id", .vNum 2), ("subject", .vStr "English"), ("location", .vStr "Colindale"),
      ("price", .vNum 80), ("spaces", .vNum 5), ("icon", .vStr "fa-solid fa-book-open"),
      ("image", .vStr "https://img.icons8.com/color/240/book-reading.png") ],
    [ ("id", .vNum 3), ("subject", .vStr "Biology"), ("location", .vStr "Golders Green"),
      ("price", .vNum 90), ("spaces", .vNum 5), ("icon", .vStr "fa-solid fa-seedling"),
      ("image", .vStr "https://img.icons8.com/color/240/dna-helix.png") ],
    [ ("id", .vNum 4), ("subject", .vStr "Chemistry"), ("location", .vStr "Brent Cross"),
      ("price", .vNum 70), ("spaces", .vNum 5), ("icon", .vStr "fa-solid fa-flask"),
      ("image", .vStr "https://img.icons8.com/color/240/test-tube.png") ],
    [ ("id", .vNum 5), ("subject", .vStr "History"), ("location", .vStr "Hendon"),
      ("price", .vNum 50), ("spaces", .vNum 5), ("icon", .vStr "fa-solid fa-landmark"),
      ("image", .vStr "https://img.icons8.com/color/240/scroll.png") ],
    [ ("id", .vNum 6), ("subject", .vStr "Physics"), ("location", .vStr "Colindale"),
      ("price", .vNum 95), ("spaces", .vNum 5), ("icon", .vStr "fa-solid fa-atom"),
      ("image", .vStr "https://img.icons8.com/color/240/physics.png") ],
    [ ("id", .vNum 7), ("subject", .vStr "Art"), ("location", .vStr "Brent Cross"),
      ("price", .vNum 60), ("spaces", .vNum 5), ("icon", .vStr "fa-solid fa-palette"),
      ("image", .vStr "https://img.icons8.com/color/240/art-prices.png") ],
    [ ("id", .vNum 8), ("subject", .vStr "Geography"), ("location", .vStr "Golders Green"),
      ("price", .vNum 85), ("spaces", .vNum 5), ("icon", .vStr "fa-solid fa-earth-europe"),
      ("image", .vStr "https://img.icons8.com/color/240/globe--v1.png") ],
    [ ("id", .vNum 9), ("subject", .vStr "Computer Science"), ("location", .vStr "Hendon"),
      ("price", .vNum 120), ("spaces", .vNum 5), ("icon", .vStr "fa-solid fa-code"),
      ("image", .vStr "https://img.icons8.com/color/240/source-code.png") ],
    [ ("id", .vNum 10), ("subject", .vStr "Economics"), ("location", .vStr "Colindale"),
      ("price", .vNum 110), ("spaces", .vNum 5), ("icon", .vStr "fa-solid fa-chart-line"),
      ("image", .vStr "https://img.icons8.com/color/240/economic-improvement.png") ] ]

/-- Environment of a seeder run: is `MONGODB_URI` set, and does each
store step succeed?  A `false` flag means the corresponding awaited call
throws. -/
structure SeedEnv where
  uriPresent : Bool
  connectOk : Bool
  deleteOk : Bool
  insertOk : Bool
  deriving DecidableEq

/-- A run in which something went wrong (missing connection string, or a
connection / delete / insert failure). -/
def seedFailed (e : SeedEnv) : Bool :=
  !e.uriPresent || !e.connectOk || !e.deleteOk || !e.insertOk

/-- Embedding of `seed()` from `scripts/seed.js`, as a function from the
run environment and the prior lessons collection to the process exit
status and the final collection.  `process.exit(1)` fires only on the
missing-URI guard; every throw inside the `try` block is caught by the
`catch`, which merely logs, so the process then drains and exits 0.  A
delete failure is modelled as leaving the collection unchanged; an
insert failure leaves it wiped (the delete has already committed). -/
def seedRun (e : SeedEnv) (prior : List Doc) : Nat × List Doc :=
  if !e.uriPresent then (1, prior)
  else if !e.connectOk then (0, prior)
  else if !e.deleteOk then (0, prior)
  else if !e.insertOk then (0, [])
  else (0, seedLessons)

/-! ### Helper lemmas -/

theorem jsToString_vStr (s : String) : jsToString (.vStr s) = s := rfl

theorem jsIsArray_eq_true_iff (v : JsVal) : jsIsArray v = true ↔ ∃ xs, v = .vArr xs := by
  cases v <;> simp [jsIsArray]

theorem getField_setField (d : Doc) (k1 k : String) (v : JsVal) :
    getField (setField d k1 v) k = if k1 = k then some v else getField d k := by
  induction d with
  | nil =>
    simp [setField, getField]
  | cons kv rest ih =>
    obtain ⟨k', v'⟩ := kv
    simp only [setField]
    by_cases h : k' = k1
    · rw [if_pos h]
      simp only [getField]
      by_cases h2 : k1 = k
      · simp [h2]
      · simp [h2, h, getField]
    · rw [if_neg h]
      simp only [getField]
      by_cases h2 : k' = k
      · rw [if_pos h2, if_pos h2]
        have hne : k1 ≠ k := fun hk => h (h2.trans hk.symm)
        rw [if_neg hne]
      · rw [if_neg h2, if_neg h2, ih]

theorem lastBinding_eq_none (patch : Doc) (k : String)
    (h : k ∉ patch.map Prod.fst) : lastBinding patch k = none := by
  induction patch with
  | nil => rfl
  | cons kv rest ih =>
    obtain ⟨k', v⟩ := kv
    simp only [List.map_cons, List.mem_cons, not_or] at h
    simp only [lastBinding, ih h.2]
    rw [if_neg (fun e => h.1 e.symm)]

theorem getField_applySet (patch : Doc) (d : Doc) (k : String) :
    getField (applySet d patch) k =
      match lastBinding patch k with
      | some w => some w
      | none => getField d k := by
  induction patch generalizing d with
  | nil => rfl
  | cons kv rest ih =>
    obtain ⟨k1, v⟩ := kv
    show getField (applySet (setField d k1 v) rest) k = _
    rw [ih (setField d k1 v)]
    simp only [lastBinding]
    cases hlb : lastBinding rest k with
    | some w => rfl
    | none =>
      rw [getField_setField]
      by_cases h2 : k1 = k
      · simp [h2]
      · simp [h2]

theorem getField_applySet_not_mem (patch : Doc) (d : Doc) (k : String)
    (h : k ∉ patch.map Prod.fst) :
    getField (applySet d patch) k = getField d k := by
  rw [getField_applySet, lastBinding_eq_none patch k h]

theorem getField_applySet_last (patch : Doc) (d : Doc) (k : String) (v : JsVal)
    (h : lastBinding patch k = some v) :
    getField (applySet d patch) k = some v := by
  rw [getField_applySet, h]

theorem mem_zip_same {α : Type} (l : List α) (pr : α × α)
    (h : pr ∈ List.zip l l) : pr.2 = pr.1 := by
  induction l with
  | nil => cases h
  | cons a rest ih =>
    rcases List.mem_cons.mp h with h | h
    · simp [h]
    · exact ih h

theorem updateOne_length (docs : List Doc) (n : Int) (patch : Doc) :
    (updateOne docs n patch).1.length = docs.length := by
  induction docs with
  | nil => rfl
  | cons d rest ih =>
    simp only [updateOne]
    split
    · simp
    · simp [ih]

theorem updateOne_frame (docs : List Doc) (n : Int) (patch : Doc) :
    ∀ pr ∈ List.zip docs (updateOne docs n patch).1,
      (idMatches pr.1 n = false → pr.2 = pr.1)
      ∧ ∀ k, k ∉ patch.map Prod.fst → getField pr.2 k = getField pr.1 k := by
  induction docs with
  | nil => intro pr h; cases h
  | cons d rest ih =>
    intro pr hpr
    simp only [updateOne] at hpr
    by_cases hm : idMatches d n = true
    · rw [if_pos hm] at hpr
      simp only [List.zip_cons_cons] at hpr
      rcases List.mem_cons.mp hpr with h | h
      · subst h
        refine ⟨fun hf => absurd hm (by simp [hf]), ?_⟩
        intro k hk
        exact getField_applySet_not_mem patch d k hk
      · have := mem_zip_same rest pr h
        exact ⟨fun _ => this, fun k _ => by rw [this]⟩
    · rw [if_neg hm] at hpr
      simp only [List.zip_cons_cons] at hpr
      rcases List.mem_cons.mp hpr with h | h
      · subst h
        exact ⟨fun _ => rfl, fun k _ => rfl⟩
      · exact ih pr h

theorem updateOne_no_match (docs : List Doc) (n : Int) (patch : Doc)
    (h : ∀ d ∈ docs, idMatches d n = false) :
    updateOne docs n patch = (docs, 0) := by
  induction docs with
  | nil => rfl
  | cons d rest ih =>
    have hd : idMatches d n = false := h d (List.mem_cons_self d rest)
    simp only [updateOne, hd]
    rw [ih (fun d' hd' => h d' (List.mem_cons_of_mem d hd'))]
    simp

theorem updateOne_first_match (pre : List Doc) (d : Doc) (post : List Doc)
    (n : Int) (patch : Doc)
    (hpre : ∀ d' ∈ pre, idMatches d' n = false) (hd : idMatches d n = true) :
    updateOne (pre ++ d :: post) n patch = (pre ++ applySet d patch :: post, 1) := by
  induction pre with
  | nil => simp [updateOne, hd]
  | cons p ps ih =>
    have hp : idMatches p n = false := hpre p (List.mem_cons_self p ps)
    simp only [List.cons_append, updateOne, hp, List.append_eq]
    rw [ih (fun d' hd' => hpre d' (List.mem_cons_of_mem p hd'))]
    simp

theorem beq_false_of_isDigit {c c' : Char} (h : c.isDigit = true)
    (hc' : c'.isDigit = false) : (c == c') = false := by
  rw [beq_eq_false_iff_ne]
  intro e
  rw [e, hc'] at h
  exact Bool.noConfusion h

theorem jsWS_eq_false_of_isDigit {c : Char} (h : c.isDigit = true) : jsWS c = false := by
  simp [jsWS, beq_false_of_isDigit h (show Char.isDigit ' ' = false from by decide),
    beq_false_of_isDigit h (show Char.isDigit '\t' = false from by decide),
    beq_false_of_isDigit h (show Char.isDigit '\n' = false from by decide),
    beq_false_of_isDigit h (show Char.isDigit '\r' = false from by decide),
    beq_false_of_isDigit h (show Char.isDigit '\x0b' = false from by decide),
    beq_false_of_isDigit h (show Char.isDigit '\x0c' = false from by decide)]

theorem takeWhile_append_all {p : Char → Bool} (l1 l2 : List Char)
    (h1 : l1.all p = true) (h2 : l2.takeWhile p = []) :
    (l1 ++ l2).takeWhile p = l1 := by
  induction l1 with
  | nil =>
    simp only [List.nil_append]
    exact h2
  | cons c cs ih =>
    simp only [List.all_cons, Bool.and_eq_true] at h1
    simp [List.takeWhile_cons_of_pos h1.1, ih h1.2]

theorem takeWhile_nil_of_all_not {p : Char → Bool} (l : List Char)
    (h : l.all (fun c => !p c) = true) : l.takeWhile p = [] := by
  cases l with
  | nil => rfl
  | cons c cs =>
    simp only [List.all_cons, Bool.and_eq_true, Bool.not_eq_true'] at h
    exact List.takeWhile_cons_of_neg (by simp [h.1])

theorem jsParseIntTen_digits_append (ds t : String)
    (h1 : ds ≠ "") (h2 : ds.data.all Char.isDigit = true)
    (h4 : t.data.all (fun c => !c.isDigit) = true) :
    jsParseIntTen (ds ++ t) = some ((digitsToNat ds.data : Nat) : Int)
    ∧ jsParseIntTen ds = some ((digitsToNat ds.data : Nat) : Int) := by
  obtain ⟨c, cs, hds⟩ : ∃ c cs, ds.data = c :: cs := by
    cases hd : ds.data with
    | nil =>
      exact absurd (String.ext hd) h1
    | cons c cs => exact ⟨c, cs, rfl⟩
  have hc : c.isDigit = true := by
    rw [hds] at h2
    simp only [List.all_cons, Bool.and_eq_true] at h2
    exact h2.1
  have hall : cs.all Char.isDigit = true := by
    rw [hds] at h2
    simp only [List.all_cons, Bool.and_eq_true] at h2
    exact h2.2
  have hws : jsWS c = false := jsWS_eq_false_of_isDigit hc
  have hcm : ¬(c = '-') := by
    intro e
    rw [e] at hc
    exact absurd hc (by decide)
  have hcp : ¬(c = '+') := by
    intro e
    rw [e] at hc
    exact absurd hc (by decide)
  have htw : List.takeWhile Char.isDigit t.data = [] := takeWhile_nil_of_all_not t.data h4
  constructor
  · have hdata : (ds ++ t).data.dropWhile jsWS = c :: (cs ++ t.data) := by
      rw [String.data_append, hds, List.cons_append]
      exact List.dropWhile_cons_of_neg (by simp [hws])
    have htake : List.takeWhile Char.isDigit (c :: (cs ++ t.data)) = c :: cs := by
      have h5 := takeWhile_append_all (p := Char.isDigit) (c :: cs) t.data
        (by simp [List.all_cons, hc, hall]) htw
      simpa using h5
    simp only [jsParseIntTen, hdata]
    simp only [if_neg hcm, if_neg hcp, htake, hds]
  · have hdata : ds.data.dropWhile jsWS = c :: cs := by
      rw [hds]
      exact List.dropWhile_cons_of_neg (by simp [hws])
    have htake : List.takeWhile Char.isDigit (c :: cs) = c :: cs := by
      have h5 := takeWhile_append_all (p := Char.isDigit) (c :: cs) []
        (by simp [List.all_cons, hc, hall]) rfl
      simpa using h5
    simp only [jsParseIntTen, hdata]
    simp only [if_neg hcm, if_neg hcp, htake, hds]

theorem char_toNat_ofNat_valid (m : Nat) (h : m < 55296) : (Char.ofNat m).toNat = m := by
  rw [Char.ofNat, dif_pos (Or.inl h)]
  rfl

theorem char_toLower_toLower (c : Char) : c.toLower.toLower = c.toLower := by
  unfold Char.toLower
  by_cases h : c.toNat ≥ 65 ∧ c.toNat ≤ 90
  · rw [if_pos h]
    have hval : (Char.ofNat (c.toNat + 32)).toNat = c.toNat + 32 :=
      char_toNat_ofNat_valid _ (by omega)
    rw [if_neg (by omega)]
  · rw [if_neg h, if_neg h]

theorem char_toLower_ne_dot {c : Char} (h : c ≠ '.') : c.toLower ≠ '.' := by
  unfold Char.toLower
  by_cases hr : c.toNat ≥ 65 ∧ c.toNat ≤ 90
  · rw [if_pos hr]
    intro e
    have hv : (Char.ofNat (c.toNat + 32)).toNat = c.toNat + 32 :=
      char_toNat_ofNat_valid _ (by omega)
    rw [e] at hv
    have hd : ('.' : Char).toNat = 46 := rfl
    omega
  · rw [if_neg hr]
    exact h

theorem matchToksHere_lit (ps : List Char) (cs : List Char) :
    matchToksHere (ps.map RTok.lit) cs = ciPrefixOf ps cs := by
  induction ps generalizing cs with
  | nil => cases cs <;> rfl
  | cons a as ih =>
    cases cs with
    | nil => rfl
    | cons c cs' =>
      simp only [List.map_cons, matchToksHere, ciPrefixOf, tokMatch, ih]

theorem matchToksIn_lit (ps : List Char) (cs : List Char) :
    matchToksIn (ps.map RTok.lit) cs = ciSubstrOf ps cs := by
  induction cs with
  | nil => simp only [matchToksIn, ciSubstrOf, matchToksHere_lit]
  | cons c cs' ih =>
    simp only [matchToksIn, ciSubstrOf, matchToksHere_lit, ih]

theorem ciPrefixOf_map_toLower (ps : List Char) (cs : List Char) :
    ciPrefixOf (ps.map Char.toLower) cs = ciPrefixOf ps cs := by
  induction ps generalizing cs with
  | nil => rfl
  | cons a as ih =>
    cases cs with
    | nil => rfl
    | cons c cs' =>
      simp only [List.map_cons, ciPrefixOf, char_toLower_toLower, ih]

theorem ciSubstrOf_map_toLower (ps : List Char) (cs : List Char) :
    ciSubstrOf (ps.map Char.toLower) cs = ciSubstrOf ps cs := by
  induction cs with
  | nil => simp only [ciSubstrOf, ciPrefixOf_map_toLower]
  | cons c cs' ih =>
    simp only [ciSubstrOf, ciPrefixOf_map_toLower, ih]

theorem map_patTok_no_dot (l : List Char) (h : ∀ c ∈ l, ¬(c = '.')) :
    (l.map fun c => if c = '.' then RTok.anyChar else RTok.lit c) = l.map RTok.lit := by
  induction l with
  | nil => rfl
  | cons c cs ih =>
    simp only [List.map_cons]
    rw [if_neg (h c (List.mem_cons_self c cs))]
    rw [ih (fun c' hc' => h c' (List.mem_cons_of_mem c hc'))]

theorem regexTestI_eq_ciContains (term : String) (h : metaFree term = true)
    (s : String) : regexTestI (jsToLower term) s = ciContains term s := by
  have hdot : ∀ c ∈ term.data, ¬(c = '.') := by
    intro c hc e
    have hm := (List.all_eq_true.mp h) c hc
    rw [e] at hm
    exact absurd hm (by decide)
  have hdot2 : ∀ c ∈ term.data.map Char.toLower, ¬(c = '.') := by
    intro c hc e
    obtain ⟨c0, hc0, hmap⟩ := List.mem_map.mp hc
    exact char_toLower_ne_dot (hdot c0 hc0) (hmap.trans e)
  have htoks : patToks (jsToLower term) = (term.data.map Char.toLower).map RTok.lit := by
    show (term.data.map Char.toLower).map _ = _
    exact map_patTok_no_dot _ hdot2
  show matchToksIn (patToks (jsToLower term)) s.data = ciSubstrOf term.data s.data
  rw [htoks, matchToksIn_lit, ciSubstrOf_map_toLower]

/-! ### Claim theorems -/

/-- C1: for every order payload with a non-empty name, a non-empty
digits-only phone string of length at least 8, and a non-empty items
array, `POST /orders` (and its alias `POST /order`) responds 201 and
persists exactly one new order document whose `total` equals the supplied
total, or 0 if total is omitted or falsy, with a server-assigned
`createdAt` timestamp. -/
theorem orders_valid_payload_created
    (body : Doc) (now : Int) (orders : List Doc) (nm ph : String) (its : List JsVal)
    (hn : jsField body "name" = .vStr nm) (hn0 : nm ≠ "")
    (hp : jsField body "phone" = .vStr ph)
    (hpd : ph.data.all Char.isDigit = true) (hpl : 8 ≤ ph.length)
    (hi : jsField body "items" = .vArr its) (hi0 : its ≠ []) :
    handleCreateOrder body now orders = (201, orders ++ [orderDocOf body now])
    ∧ getField (orderDocOf body now) "total"
        = some (if jsTruthy (jsField body "total") then jsField body "total" else .vNum 0)
    ∧ getField (orderDocOf body now) "createdAt" = some (.vDate now)
    ∧ postOrderRoute body now orders = postOrdersRoute body now orders := by
  have hph0 : ph ≠ "" := by
    intro h
    rw [h] at hpl
    simp at hpl
  have hnmE : nm.isEmpty = false := by
    simp [Bool.eq_false_iff, String.isEmpty_iff, hn0]
  have hphE : ph.isEmpty = false := by
    simp [Bool.eq_false_iff, String.isEmpty_iff, hph0]
  have e1 : jsTruthy (JsVal.vStr nm) = true := by
    simp [jsTruthy, hnmE]
  have e2 : jsTruthy (JsVal.vStr ph) = true := by
    simp [jsTruthy, hphE]
  have e3 : digitsOnlyTest (JsVal.vStr ph) = true := by
    simp [digitsOnlyTest, jsToString, hphE, hpd]
  have e4 : jsLengthLtEight (JsVal.vStr ph) = false := by
    simp [jsLengthLtEight]
    omega
  have e5 : (jsArrLen (JsVal.vArr its) == 0) = false := by
    simp [jsArrLen]
    exact hi0
  refine ⟨?_, ?_, ?_, rfl⟩
  · simp only [handleCreateOrder, hn, hp, hi, e1, e2, e3, e4, e5, jsIsArray,
      Bool.not_true, Bool.false_or, Bool.or_false, Bool.or_self, if_false,
      Bool.not_false, Bool.true_or, if_true]
    simp
  · simp [orderDocOf, getField]
  · simp [orderDocOf, getField]

/-- Witness for C1: a concrete valid payload (name `"Ada"`, 11-digit
phone string, one item, total 100) is accepted with status 201 and
appends exactly its order document. -/
theorem orders_valid_payload_created_witness :
    handleCreateOrder
        [("name", JsVal.vStr "Ada"), ("phone", JsVal.vStr "02081234567"),
         ("items", JsVal.vArr [JsVal.vObj [("id", JsVal.vNum 1), ("quantity", JsVal.vNum 2)]]),
         ("total", JsVal.vNum 100)] 99 []
      = (201, [orderDocOf
        [("name", JsVal.vStr "Ada"), ("phone", JsVal.vStr "02081234567"),
         ("items", JsVal.vArr [JsVal.vObj [("id", JsVal.vNum 1), ("quantity", JsVal.vNum 2)]]),
         ("total", JsVal.vNum 100)] 99]) :=
  (orders_valid_payload_created
    [("name", JsVal.vStr "Ada"), ("phone", JsVal.vStr "02081234567"),
     ("items", JsVal.vArr [JsVal.vObj [("id", JsVal.vNum 1), ("quantity", JsVal.vNum 2)]]),
     ("total", JsVal.vNum 100)] 99 [] "Ada" "02081234567"
    [JsVal.vObj [("id", JsVal.vNum 1), ("quantity", JsVal.vNum 2)]]
    rfl (by decide) rfl (by decide) (by decide) rfl (List.cons_ne_nil _ _)).1

/-- C2: for every order payload violating any one validation rule (name
missing or empty, phone missing or empty, phone containing a non-digit
character, phone shorter than 8 characters, or items not a non-empty
array), `POST /orders` responds 400 and leaves the orders collection
unchanged; repeating the same invalid submission never creates a
record. -/
theorem orders_invalid_payload_rejected
    (body : Doc) (now : Int) (orders : List Doc)
    (h : jsField body "name" = .vUndefined ∨ jsField body "name" = .vStr ""
       ∨ jsField body "phone" = .vUndefined ∨ jsField body "phone" = .vStr ""
       ∨ (∃ p, jsField body "phone" = .vStr p ∧ ¬ (p.data.all Char.isDigit = true))
       ∨ (∃ p, jsField body "phone" = .vStr p ∧ p.length < 8)
       ∨ (∀ xs, jsField body "items" = .vArr xs → xs = [])) :
    handleCreateOrder body now orders = (400, orders)
    ∧ handleCreateOrder body now (handleCreateOrder body now orders).2 = (400, orders) := by
  suffices h1 : handleCreateOrder body now orders = (400, orders) by
    refine ⟨h1, ?_⟩
    rw [h1]
    exact h1
  have hemp : "".isEmpty = true := rfl
  rcases h with h | h | h | h | ⟨p, hp, hpd⟩ | ⟨p, hp, hpl⟩ | hitems
  · simp [handleCreateOrder, h, jsTruthy]
  · simp [handleCreateOrder, h, jsTruthy, hemp]
  · simp [handleCreateOrder, h, jsTruthy]
  · simp [handleCreateOrder, h, jsTruthy, hemp]
  · simp only [handleCreateOrder]
    split
    · rfl
    · split
      · rfl
      · next hc2 =>
        exfalso
        rw [Bool.not_eq_true] at hc2
        rw [hp] at hc2
        simp only [Bool.or_eq_false_iff, Bool.not_eq_false'] at hc2
        have h2 := hc2.1
        rw [digitsOnlyTest] at h2
        simp only [jsToString_vStr, Bool.and_eq_true] at h2
        exact hpd h2.2
  · simp only [handleCreateOrder]
    split
    · rfl
    · split
      · rfl
      · next hc2 =>
        exfalso
        rw [Bool.not_eq_true] at hc2
        rw [hp] at hc2
        simp only [Bool.or_eq_false_iff, Bool.not_eq_false'] at hc2
        have h2 := hc2.2
        simp only [jsLengthLtEight, decide_eq_false_iff_not] at h2
        exact h2 hpl
  · simp only [handleCreateOrder]
    split
    · rfl
    · next hc1 =>
      exfalso
      rw [Bool.not_eq_true] at hc1
      simp only [Bool.or_eq_false_iff, Bool.not_eq_false'] at hc1
      have harr := hc1.1.2
      have hlen := hc1.2
      obtain ⟨xs, hxs⟩ := (jsIsArray_eq_true_iff _).mp harr
      have hx := hitems xs hxs
      rw [hxs, hx] at hlen
      simp [jsArrLen] at hlen

/-- Witness for C2: a payload whose phone string `"12345"` is shorter
than 8 characters is rejected with 400 and the (empty) orders collection
stays empty, also on resubmission. -/
theorem orders_invalid_payload_rejected_witness :
    handleCreateOrder [("name", JsVal.vStr "Ada"), ("phone", JsVal.vStr "12345"),
        ("items", JsVal.vArr [JsVal.vNum 1])] 5 [] = (400, [])
    ∧ handleCreateOrder [("name", JsVal.vStr "Ada"), ("phone", JsVal.vStr "12345"),
        ("items", JsVal.vArr [JsVal.vNum 1])] 5
        (handleCreateOrder [("name", JsVal.vStr "Ada"), ("phone", JsVal.vStr "12345"),
          ("items", JsVal.vArr [JsVal.vNum 1])] 5 []).2 = (400, []) :=
  orders_invalid_payload_rejected
    [("name", JsVal.vStr "Ada"), ("phone", JsVal.vStr "12345"),
     ("items", JsVal.vArr [JsVal.vNum 1])] 5 []
    (Or.inr (Or.inr (Or.inr (Or.inr (Or.inr (Or.inl ⟨"12345", rfl, by decide⟩))))))

/-- C10: if an order payload supplies `phone` as a JSON number, the
minimum-length rule never rejects it: a number has no `length` property,
`undefined < 8` is `false`, so for every truthy numeric phone whose
decimal digits pass the digits-only pattern (in particular numbers with
fewer than 8 digits) the payload is accepted and the order persisted. -/
theorem orders_numeric_phone_accepted
    (body : Doc) (now : Int) (orders : List Doc) (n : Int) (nm : String) (its : List JsVal)
    (hp : jsField body "phone" = .vNum n) (hn1 : n ≠ 0)
    (hpd : digitsOnlyTest (.vNum n) = true)
    (hn : jsField body "name" = .vStr nm) (hn0 : nm ≠ "")
    (hi : jsField body "items" = .vArr its) (hi0 : its ≠ []) :
    jsLengthLtEight (.vNum n) = false
    ∧ handleCreateOrder body now orders = (201, orders ++ [orderDocOf body now]) := by
  have hnmE : nm.isEmpty = false := by
    simp [Bool.eq_false_iff, String.isEmpty_iff, hn0]
  have e1 : jsTruthy (JsVal.vStr nm) = true := by
    simp [jsTruthy, hnmE]
  have e2 : jsTruthy (JsVal.vNum n) = true := by
    simp [jsTruthy, hn1]
  have e5 : (jsArrLen (JsVal.vArr its) == 0) = false := by
    simp [jsArrLen]
    exact hi0
  refine ⟨rfl, ?_⟩
  simp only [handleCreateOrder, hn, hp, hi, e1, e2, hpd, e5, jsIsArray,
    jsLengthLtEight, Bool.not_true, Bool.false_or, Bool.or_false, Bool.or_self,
    Bool.not_false, Bool.true_or]
  simp

/-- Witness for C10: the 7-digit numeric phone `1234567` (its string
form has length 7, below the minimum of 8) is accepted with 201 and the
order is persisted. -/
theorem orders_numeric_phone_accepted_witness :
    (jsToString (JsVal.vNum 1234567)).length = 7
    ∧ jsLengthLtEight (JsVal.vNum 1234567) = false
    ∧ handleCreateOrder [("name", JsVal.vStr "Ada"), ("phone", JsVal.vNum 1234567),
        ("items", JsVal.vArr [JsVal.vNum 1])] 5 []
      = (201, [orderDocOf [("name", JsVal.vStr "Ada"), ("phone", JsVal.vNum 1234567),
        ("items", JsVal.vArr [JsVal.vNum 1])] 5]) := by
  have h := orders_numeric_phone_accepted
    [("name", JsVal.vStr "Ada"), ("phone", JsVal.vNum 1234567),
     ("items", JsVal.vArr [JsVal.vNum 1])]
    5 [] 1234567 "Ada" [JsVal.vNum 1]
    rfl (by decide) (by rfl) rfl (by decide) rfl (List.cons_ne_nil _ _)
  exact ⟨rfl, h.1, h.2⟩

/-- C3 counterexample: the code passes the raw search term as a regular
expression pattern, so the claim fails for terms containing regex
metacharacters.  For the term `"."` (non-empty after trimming, not
numeric) the route matches every lesson whose subject or location is a
non-empty string — all ten catalog lessons — while no catalog subject or
location contains a literal `"."`, so the set described by the claim is
empty. -/
theorem search_regex_metachar_counterexample :
    jsTrim "." = "." ∧ metaFree "." = false
    ∧ (searchRoute (some ".") seedLessons).length = 10
    ∧ seedLessons.filter (specLessonMatches ".") = []
    ∧ searchRoute (some ".") seedLessons ≠ seedLessons.filter (specLessonMatches ".") := by
  refine ⟨rfl, rfl, rfl, rfl, ?_⟩
  intro h
  have h10 : (searchRoute (some ".") seedLessons).length = 10 := rfl
  rw [h] at h10
  have h0 : (seedLessons.filter (specLessonMatches ".")).length = 0 := rfl
  rw [h10] at h0
  exact absurd h0 (by decide)

/-- C3 (amended): for every query term that is non-empty after trimming
and free of regular-expression metacharacters, `GET /search` returns
exactly the lessons satisfying the disjunction: subject contains the
term as a case-insensitive substring, or location does, or — only when
the trimmed term parses fully as a number N — price equals N or spaces
equals N; a merely numeric-prefixed term contributes no numeric
branch. -/
theorem search_nonempty_metafree_term_filters
    (q : Option String) (lessons : List Doc) (term : String)
    (hq : jsTrim (q.getD "") = term) (hne : term ≠ "") (hmf : metaFree term = true) :
    searchRoute q lessons = lessons.filter (specLessonMatches term)
    ∧ ∀ d, d ∈ searchRoute q lessons ↔ d ∈ lessons ∧ specLessonMatches term d = true := by
  have hE : term.isEmpty = false := by
    simp [Bool.eq_false_iff, String.isEmpty_iff, hne]
  have hmatch : ∀ d, lessonMatchesQuery term d = specLessonMatches term d := by
    intro d
    unfold lessonMatchesQuery specLessonMatches
    simp only [regexTestI_eq_ciContains term hmf]
  have hroute : searchRoute q lessons = lessons.filter (lessonMatchesQuery term) := by
    cases q with
    | none =>
      simp only [Option.getD] at hq
      simp [searchRoute, hq, hE]
    | some s =>
      simp only [Option.getD] at hq
      simp [searchRoute, hq, hE]
  have hfilter : lessons.filter (lessonMatchesQuery term)
      = lessons.filter (specLessonMatches term) :=
    List.filter_congr (fun d _ => hmatch d)
  refine ⟨hroute.trans hfilter, fun d => ?_⟩
  rw [hroute.trans hfilter]
  exact List.mem_filter

/-- Witness for C3 (amended): the metacharacter-free term `"hist"` on
the seeded catalog returns exactly the spec-filtered lessons, and that
set is the single History lesson. -/
theorem search_nonempty_metafree_term_filters_witness :
    (searchRoute (some "hist") seedLessons).length = 1
    ∧ searchRoute (some "hist") seedLessons = seedLessons.filter (specLessonMatches "hist") :=
  ⟨rfl, (search_nonempty_metafree_term_filters (some "hist") seedLessons "hist"
    rfl (by decide) (by decide)).1⟩

/-- C4: `PUT /lessons/:id` responds 400 with no store operation when the
id parameter does not parse as an integer (`parseInt` yields NaN);
responds 404 leaving the store unchanged when the id parses but no
record has that id; and when exactly one record matches, responds with
the no-echo success message (status 200) and the patched record shows
the patch's field values. -/
theorem put_lesson_route_branches (idParam : String) (body : Doc) (docs : List Doc) :
    (jsParseIntTen idParam = none →
        putLessonRoute idParam body docs = (.badRequest, docs))
    ∧ (∀ n, jsParseIntTen idParam = some n →
        (∀ d ∈ docs, idMatches d n = false) →
        putLessonRoute idParam body docs = (.notFound, docs))
    ∧ (∀ n pre d post, jsParseIntTen idParam = some n →
        docs = pre ++ d :: post →
        (∀ d' ∈ pre, idMatches d' n = false) →
        idMatches d n = true →
        (∀ d' ∈ post, idMatches d' n = false) →
        putLessonRoute idParam body docs = (.updated, pre ++ applySet d body :: post)
        ∧ ∀ k v, lastBinding body k = some v → getField (applySet d body) k = some v)
    ∧ putStatus .badRequest = 400 ∧ putStatus .notFound = 404 ∧ putStatus .updated = 200 := by
  refine ⟨?_, ?_, ?_, rfl, rfl, rfl⟩
  · intro h
    simp [putLessonRoute, h]
  · intro n h hnone
    simp only [putLessonRoute, h]
    rw [updateOne_no_match docs n body hnone]
    simp
  · intro n pre d post h hdocs hpre hd hpost
    subst hdocs
    refine ⟨?_, fun k v hlb => getField_applySet_last body d k v hlb⟩
    simp only [putLessonRoute, h]
    rw [updateOne_first_match pre d post n body hpre hd]
    simp

/-- Witness for C4: the non-numeric id `"abc"` yields 400; the absent id
`77` yields 404 with the store unchanged; updating id `1` with
`(spaces, 3)` succeeds with the no-echo response and the stored record
then reads `spaces = 3`. -/
theorem put_lesson_route_branches_witness :
    putLessonRoute "abc" [("spaces", JsVal.vNum 3)] [] = (PutResponse.badRequest, [])
    ∧ putLessonRoute "77" [("spaces", JsVal.vNum 3)] [[("id", JsVal.vNum 1)]]
        = (PutResponse.notFound, [[("id", JsVal.vNum 1)]])
    ∧ putLessonRoute "1" [("spaces", JsVal.vNum 3)]
        [[("id", JsVal.vNum 1), ("spaces", JsVal.vNum 5)]]
        = (PutResponse.updated,
           [applySet [("id", JsVal.vNum 1), ("spaces", JsVal.vNum 5)] [("spaces", JsVal.vNum 3)]])
    ∧ getField (applySet [("id", JsVal.vNum 1), ("spaces", JsVal.vNum 5)]
        [("spaces", JsVal.vNum 3)]) "spaces" = some (JsVal.vNum 3) := by
  have h3 := (put_lesson_route_branches "1" [("spaces", JsVal.vNum 3)]
      [[("id", JsVal.vNum 1), ("spaces", JsVal.vNum 5)]]).2.2.1
    1 [] [("id", JsVal.vNum 1), ("spaces", JsVal.vNum 5)] [] rfl rfl
    (fun d hd => absurd hd (List.not_mem_nil d)) rfl
    (fun d hd => absurd hd (List.not_mem_nil d))
  refine ⟨(put_lesson_route_branches "abc" [("spaces", JsVal.vNum 3)] []).1 rfl,
    (put_lesson_route_branches "77" [("spaces", JsVal.vNum 3)] [[("id", JsVal.vNum 1)]]).2.1
      77 rfl ?_, h3.1, h3.2 "spaces" (JsVal.vNum 3) rfl⟩
  intro d hd
  rcases List.mem_cons.mp hd with h | h
  · rw [h]
    rfl
  · exact absurd h (List.not_mem_nil d)

/-- C5: running the seeder (with the connection string present and every
store step succeeding) leaves the lessons collection containing exactly
the ten fixed catalog records regardless of the prior state, with the
enumerated ids, subjects, locations, prices and `spaces = 5`. -/
theorem seed_reseeds_catalog (prior : List Doc) :
    seedRun ⟨true, true, true, true⟩ prior = (0, seedLessons)
    ∧ seedLessons.length = 10
    ∧ seedLessons.map (fun d => getField d "id")
        = [some (.vNum 1), some (.vNum 2), some (.vNum 3), some (.vNum 4), some (.vNum 5),
           some (.vNum 6), some (.vNum 7), some (.vNum 8), some (.vNum 9), some (.vNum 10)]
    ∧ seedLessons.map (fun d => getField d "subject")
        = [some (.vStr "Mathematics"), some (.vStr "English"), some (.vStr "Biology"),
           some (.vStr "Chemistry"), some (.vStr "History"), some (.vStr "Physics"),
           some (.vStr "Art"), some (.vStr "Geography"), some (.vStr "Computer Science"),
           some (.vStr "Economics")]
    ∧ seedLessons.map (fun d => getField d "location")
        = [some (.vStr "Hendon"), some (.vStr "Colindale"), some (.vStr "Golders Green"),
           some (.vStr "Brent Cross"), some (.vStr "Hendon"), some (.vStr "Colindale"),
           some (.vStr "Brent Cross"), some (.vStr "Golders Green"), some (.vStr "Hendon"),
           some (.vStr "Colindale")]
    ∧ seedLessons.map (fun d => getField d "price")
        = [some (.vNum 100), some (.vNum 80), some (.vNum 90), some (.vNum 70), some (.vNum 50),
           some (.vNum 95), some (.vNum 60), some (.vNum 85), some (.vNum 120), some (.vNum 110)]
    ∧ seedLessons.map (fun d => getField d "spaces") = List.replicate 10 (some (.vNum 5)) :=
  ⟨rfl, rfl, rfl, rfl, rfl, rfl, rfl⟩

/-- C6: for every query string that is empty or whitespace-only after
trimming (including an absent `q` parameter, which coerces to `""`),
`GET /search` returns a lesson list equal — in particular equal in
membership — to the one `GET /lessons` returns on the same store
state. -/
theorem search_empty_term_returns_all (q : Option String) (lessons : List Doc)
    (h : jsTrim (q.getD "") = "") :
    searchRoute q lessons = getLessonsRoute lessons
    ∧ ∀ d, d ∈ searchRoute q lessons ↔ d ∈ getLessonsRoute lessons := by
  have hall : searchRoute q lessons = lessons := by
    cases q with
    | none =>
      simp only [Option.getD] at h
      have h' : (jsTrim "").isEmpty = true := by rw [h]; rfl
      simp [searchRoute, h']
    | some s =>
      simp only [Option.getD] at h
      have h' : (jsTrim s).isEmpty = true := by rw [h]; rfl
      simp [searchRoute, h']
  exact ⟨hall, fun d => by rw [hall]; rfl⟩

/-- Witness for C6: the whitespace-only query `"   "` on the seeded
catalog returns exactly what `GET /lessons` returns. -/
theorem search_empty_term_returns_all_witness :
    searchRoute (some "   ") seedLessons = getLessonsRoute seedLessons
    ∧ ∀ d, d ∈ searchRoute (some "   ") seedLessons ↔ d ∈ getLessonsRoute seedLessons :=
  search_empty_term_returns_all (some "   ") seedLessons rfl

/-- C7: for every lessons-collection state, integer id and patch,
`updateOne` modifies at most the single record whose `id` equals the
given integer: the collection keeps its length, every record whose `id`
does not match is unchanged, and in every record (the patched one
included) each field not named in the patch keeps its previous value. -/
theorem updateById_frame (docs : List Doc) (n : Int) (patch : Doc) :
    (updateOne docs n patch).1.length = docs.length
    ∧ ∀ pr ∈ List.zip docs (updateOne docs n patch).1,
        (idMatches pr.1 n = false → pr.2 = pr.1)
        ∧ ∀ k, k ∉ patch.map Prod.fst → getField pr.2 k = getField pr.1 k :=
  ⟨updateOne_length docs n patch, updateOne_frame docs n patch⟩

/-- Witness for C7: patching `spaces` of lesson 1 in a two-lesson store
keeps the length, leaves lesson 2 untouched, and preserves the
unpatched `id` field of the patched record. -/
theorem updateById_frame_witness :
    (updateOne [[("id", JsVal.vNum 1), ("spaces", JsVal.vNum 5)],
        [("id", JsVal.vNum 2), ("spaces", JsVal.vNum 5)]] 1 [("spaces", JsVal.vNum 3)]).1.length
      = 2
    ∧ (([("id", JsVal.vNum 2), ("spaces", JsVal.vNum 5)],
        [("id", JsVal.vNum 2), ("spaces", JsVal.vNum 5)]) : Doc × Doc).2
      = [("id", JsVal.vNum 2), ("spaces", JsVal.vNum 5)]
    ∧ getField (applySet [("id", JsVal.vNum 1), ("spaces", JsVal.vNum 5)]
        [("spaces", JsVal.vNum 3)]) "id"
      = getField [("id", JsVal.vNum 1), ("spaces", JsVal.vNum 5)] "id" := by
  have h := updateById_frame
    [[("id", JsVal.vNum 1), ("spaces", JsVal.vNum 5)],
     [("id", JsVal.vNum 2), ("spaces", JsVal.vNum 5)]] 1 [("spaces", JsVal.vNum 3)]
  refine ⟨h.1, ?_, ?_⟩
  · exact (h.2 ([("id", JsVal.vNum 2), ("spaces", JsVal.vNum 5)],
      [("id", JsVal.vNum 2), ("spaces", JsVal.vNum 5)])
      (List.Mem.tail _ (List.Mem.head _))).1 rfl
  · exact (h.2 ([("id", JsVal.vNum 1), ("spaces", JsVal.vNum 5)],
      applySet [("id", JsVal.vNum 1), ("spaces", JsVal.vNum 5)] [("spaces", JsVal.vNum 3)])
      (List.Mem.head _)).2 "id" (by decide)

/-- C8 counterexample: a run with the connection string present but a
failing connection is a failed run, yet the process exits 0 — the
`catch` block only logs, so `process.exit(1)` is never reached for
store-step failures, contradicting "exits non-zero on any failure". -/
theorem seed_failure_exits_zero_counterexample :
    seedFailed ⟨true, false, true, true⟩ = true
    ∧ (seedRun ⟨true, false, true, true⟩ []).1 = 0 :=
  ⟨rfl, rfl⟩

/-- C8 (amended): the seeder exits non-zero (namely 1) exactly when the
connection string is missing; connection, delete and insert failures are
caught and logged and the process exits 0, as it does on success. -/
theorem seed_exit_status (e : SeedEnv) (prior : List Doc) :
    ((seedRun e prior).1 ≠ 0 ↔ e.uriPresent = false)
    ∧ ((seedRun e prior).1 = 0 ∨ (seedRun e prior).1 = 1) := by
  obtain ⟨u, c, d, i⟩ := e
  cases u <;> cases c <;> cases d <;> cases i <;> simp [seedRun]

/-- C9: an id path segment made of decimal digits followed by trailing
non-digit characters is not rejected with 400: `parseInt` keeps the
digit prefix, so the request behaves identically to one whose id segment
is just that prefix. -/
theorem put_digit_prefix_trailing_garbage (ds t : String) (body : Doc) (docs : List Doc)
    (h1 : ds ≠ "") (h2 : ds.data.all Char.isDigit = true)
    (_h3 : t ≠ "") (h4 : t.data.all (fun c => !c.isDigit) = true) :
    putLessonRoute (ds ++ t) body docs = putLessonRoute ds body docs
    ∧ (putLessonRoute (ds ++ t) body docs).1 ≠ PutResponse.badRequest := by
  obtain ⟨hA, hB⟩ := jsParseIntTen_digits_append ds t h1 h2 h4
  constructor
  · simp [putLessonRoute, hA, hB]
  · simp only [putLessonRoute, hA]
    split <;> simp

/-- Witness for C9: the segment `"3abc"` behaves exactly like `"3"` on
the seeded catalog and is not answered with 400. -/
theorem put_digit_prefix_trailing_garbage_witness :
    putLessonRoute ("3" ++ "abc") [("spaces", JsVal.vNum 3)] seedLessons
      = putLessonRoute "3" [("spaces", JsVal.vNum 3)] seedLessons
    ∧ (putLessonRoute ("3" ++ "abc") [("spaces", JsVal.vNum 3)] seedLessons).1
      ≠ PutResponse.badRequest :=
  put_digit_prefix_trailing_garbage "3" "abc" [("spaces", JsVal.vNum 3)] seedLessons
    (by decide) (by decide) (by decide) (by decide)

end CST3144
